import Mathlib

/-!
Verification of the `uboot-shell` crate (shell session, command execution,
environment access, and the YMODEM transfer engine) against its specification.

Shallow embedding conventions:
* Rust byte buffers are `List Nat` (each element a byte value 0–255).
* Rust strings are `List Char`; the relevant inputs are ASCII, and the
  Rust `str` trimming / matching combinators are embedded below.
* The serial channel is explicit: bytes written so far (`tx`), the bytes
  still available to read (`rx`).  Reading past the end of `rx` models an
  I/O error from the transport.
* Fallible operations return `Except`/`Option`.
* `usize`/`u64` arithmetic is `Nat` with explicit `2 ^ 64` bounds where
  overflow matters (64-bit target).
-/

instance {ε α : Type} [DecidableEq ε] [DecidableEq α] : DecidableEq (Except ε α)
  | .error e, .error f =>
      if h : e = f then isTrue (by rw [h]) else isFalse (by intro hh; cases hh; exact h rfl)
  | .error _, .ok _ => isFalse (by intro h; cases h)
  | .ok _, .error _ => isFalse (by intro h; cases h)
  | .ok a, .ok b =>
      if h : a = b then isTrue (by rw [h]) else isFalse (by intro hh; cases hh; exact h rfl)

/-! ## Rust string combinators (on `List Char`) -/

/-- Rust `char::is_whitespace` (the Unicode White_Space property), used by
`str::trim` / `trim_end`.  Enumerated over the full White_Space set. -/
def isRustWs (c : Char) : Bool :=
  decide ((9 ≤ c.toNat ∧ c.toNat ≤ 13) ∨ c.toNat = 32 ∨ c.toNat = 133 ∨
    c.toNat = 160 ∨ c.toNat = 5760 ∨ (8192 ≤ c.toNat ∧ c.toNat ≤ 8202) ∨
    c.toNat = 8232 ∨ c.toNat = 8233 ∨ c.toNat = 8239 ∨ c.toNat = 8287 ∨
    c.toNat = 12288)

/-- Rust `str::trim_start` restricted to whitespace. -/
def ltrim (s : List Char) : List Char := s.dropWhile isRustWs

/-- Rust `str::trim_end`. -/
def rtrim (s : List Char) : List Char := (s.reverse.dropWhile isRustWs).reverse

/-- Rust `str::trim`. -/
def trim (s : List Char) : List Char := rtrim (ltrim s)

/-- Fuel-indexed worker for `stripSuffixAll`; the fuel (initially the string
length) only guarantees termination, each step removes a nonempty suffix. -/
def stripSuffixAllGo (pat : List Char) : Nat → List Char → List Char
  | 0, s => s
  | n + 1, s =>
      if pat ≠ [] ∧ pat.isSuffixOf s then
        stripSuffixAllGo pat n (s.take (s.length - pat.length))
      else s

/-- Rust `str::trim_end_matches pat`: repeatedly removes `pat` from the end
while it is a suffix. -/
def stripSuffixAll (pat s : List Char) : List Char :=
  stripSuffixAllGo pat s.length s

/-- Fuel-indexed worker for `stripLeadAll`. -/
def stripLeadAllGo (pat : List Char) : Nat → List Char → List Char
  | 0, s => s
  | n + 1, s =>
      if pat ≠ [] ∧ pat.isPrefixOf s then
        stripLeadAllGo pat n (s.drop pat.length)
      else s

/-- Rust `str::trim_start_matches pat`. -/
def stripLeadAll (pat s : List Char) : List Char :=
  stripLeadAllGo pat s.length s

/-- Rust `str::contains pat` (substring test). -/
def containsSub (pat s : List Char) : Bool :=
  s.tails.any (fun t => pat.isPrefixOf t)

/-- Splits on the newline character; mirrors Rust `str::split "\n"`:
`n` separators yield `n + 1` pieces, the empty string yields one piece. -/
def splitNl : List Char → List (List Char)
  | [] => [[]]
  | c :: rest =>
      if c = '\n' then [] :: splitNl rest
      else
        match splitNl rest with
        | [] => [[c]]
        | h :: t => (c :: h) :: t

/-! ## Shell session: `wait_for_reply` and command execution
(`src/uboot-shell/src/lib.rs`) -/

/-- The byte-accumulation loop of `UbootShell::wait_for_reply` (lib.rs
262–279): bytes are read one at a time from the stream and appended to
`acc`; the loop stops as soon as the accumulated reply ends with `val`.
`none` models the read timing out because the stream is exhausted. -/
def accumUntil (val : List Char) : List Char → List Char → Option (List Char)
  | _, [] => none
  | acc, b :: rest =>
      if val.isSuffixOf (acc ++ [b]) then some (acc ++ [b])
      else accumUntil val (acc ++ [b]) rest

/-- `UbootShell::wait_for_reply` (lib.rs 262–284): accumulate until the
reply ends with `val`, then `trim` the whole reply and strip every trailing
occurrence of the captured prompt `perfix` (the field name keeps the
source's spelling). -/
def wait_for_reply (perfix val stream : List Char) : Option (List Char) :=
  (accumUntil val [] stream).map (fun reply => stripSuffixAll perfix (trim reply))

/-- The success marker (`ok_str` in `UbootShell::_cmd`). -/
def okStr : List Char := "cmd-ok".data

/-- The line actually transmitted by `_cmd` via `cmd_without_reply`:
`{cmd}&& echo cmd-ok` followed by a newline (lib.rs 298–311). -/
def cmdTxLine (cmd : List Char) : List Char :=
  (cmd ++ "&& echo ".data ++ okStr) ++ ['\n']

/-- `UbootShell::_cmd` (lib.rs 307–333) given the prompt `perfix`, the
command text, and the bytes the channel replies with.  Mirrors the source's
post-processing chain exactly:
`wait_for_reply(perfix)?.trim_end().trim_end_matches(perfix.trim()).trim_end()`,
then on the success marker
`.trim().trim_end_matches(ok_str).trim_end().trim_start_matches(cmd_with_id).trim()`,
otherwise an error carrying the processed response text. -/
def cmd_once (perfix cmd stream : List Char) : Except (List Char) (List Char) :=
  let cmd_with_id := cmd ++ "&& echo ".data ++ okStr
  match wait_for_reply perfix perfix stream with
  | none => .error "Timeout".data
  | some reply =>
      let res := rtrim (stripSuffixAll (trim perfix) (rtrim reply))
      if okStr.isSuffixOf res then
        .ok (trim (stripLeadAll cmd_with_id (rtrim (stripSuffixAll okStr (trim res)))))
      else
        .error ("command `".data ++ cmd ++ "` failed, response: ".data ++ res)

/-- The terminal error message of `UbootShell::cmd` (lib.rs 376–378). -/
def cmdFinalErr (cmd : List Char) : List Char :=
  "command `".data ++ cmd ++ "` failed after retries".data

/-- The retry loop of `UbootShell::cmd` (lib.rs 363–379): `retry` starts at
3; every failed `_cmd` round-trip decrements it; the first success returns.
`replies i` is the byte stream the channel produces for attempt `i`; the
result is paired with the number of `_cmd` attempts actually made. -/
def cmd_retry (perfix cmd : List Char) (replies : Nat → List Char) :
    Nat → Nat → Except (List Char) (List Char) × Nat
  | 0, attempts => (.error (cmdFinalErr cmd), attempts)
  | r + 1, attempts =>
      match cmd_once perfix cmd (replies attempts) with
      | .ok v => (.ok v, attempts + 1)
      | .error _ => cmd_retry perfix cmd replies r (attempts + 1)

/-- `UbootShell::cmd` with its fixed retry bound of 3. -/
def cmd_model (perfix cmd : List Char) (replies : Nat → List Char) :
    Except (List Char) (List Char) × Nat :=
  cmd_retry perfix cmd replies 3 0

/-! ## Environment variable access (`UbootShell::env`, `env_int`) -/

/-- Error taxonomy of the environment accessors. -/
inductive ShErr where
  | notFound
  | invalidData
deriving Repr, DecidableEq

/-- The output post-processing of `UbootShell::env` (lib.rs 431–446),
applied to the string returned by `cmd("echo $name")`: split on `"\n"`,
drop every piece that is empty after trimming, take the last remaining
piece as-is; if none remains the variable is `NotFound`. -/
def env_from_output (s : List Char) : Except ShErr (List Char) :=
  match ((splitNl s).filter (fun l => !(trim l).isEmpty)).getLast? with
  | some l => .ok l
  | none => .error .notFound

/-- Digit value as computed by Rust `char::to_digit` (before the
`< radix` validity check): `0`–`9`, then `a`–`z` and `A`–`Z` from 10. -/
def digVal (c : Char) : Nat :=
  if 48 ≤ c.toNat ∧ c.toNat ≤ 57 then c.toNat - 48
  else if 97 ≤ c.toNat ∧ c.toNat ≤ 122 then c.toNat - 87
  else if 65 ≤ c.toNat ∧ c.toNat ≤ 90 then c.toNat - 55
  else 0

/-- Rust `char::to_digit radix` validity: the character is alphanumeric and
its digit value is below the radix. -/
def isRadixDigit (radix : Nat) (c : Char) : Bool :=
  decide (digVal c < radix ∧
    ((48 ≤ c.toNat ∧ c.toNat ≤ 57) ∨ (97 ≤ c.toNat ∧ c.toNat ≤ 122) ∨
      (65 ≤ c.toNat ∧ c.toNat ≤ 90)))

/-- Rust `u64::from_str_radix`: an optional leading `+` sign, then a
nonempty run of digits valid for the radix; the accumulated value must fit
in `u64`.  Overflow is modelled by the final-value bound `< 2 ^ 64`, which
is equivalent to the source's per-step checked arithmetic because the
accumulated value is monotone in the digits consumed. -/
def from_str_radix (radix : Nat) (s : List Char) : Option Nat :=
  let t := match s with
    | c :: r => if c = '+' then r else s
    | [] => s
  if t = [] then none
  else if t.all (isRadixDigit radix) then
    let v := t.foldl (fun a c => a * radix + digVal c) 0
    if v < 2 ^ 64 then some v else none
  else none

/-- `parse_int` (lib.rs 569–577): trim, accept an optional `0x` prefix for
hexadecimal, base 10 otherwise; `as usize` is the identity on a 64-bit
target. -/
def parse_int (s : List Char) : Option Nat :=
  let line := trim s
  if "0x".data.isPrefixOf line then from_str_radix 16 (line.drop 2)
  else from_str_radix 10 line

/-- `UbootShell::env_int` (lib.rs 464–473) applied to the value string that
`env` returned: `parse_int`, with `None` turned into an `InvalidData`
error. -/
def env_int_of (line : List Char) : Except ShErr Nat :=
  match parse_int line with
  | some v => .ok v
  | none => .error .invalidData

/-! ## YMODEM transfer engine (`src/uboot-shell/src/ymodem.rs`) -/

/-- Start of Header: 128-byte block marker. -/
def SOH : Nat := 0x01
/-- Start of Text: 1024-byte block marker. -/
def STX : Nat := 0x02
/-- End of Transmission. -/
def EOT : Nat := 0x04
/-- Acknowledge. -/
def ACK : Nat := 0x06
/-- Negative acknowledge. -/
def NAK : Nat := 0x15
/-- End-of-file padding byte. -/
def EOF : Nat := 0x1a
/-- CRC mode request character. -/
def CRC : Nat := 0x43

/-- Modelled from the spec: one round of the Checksum Engine's inner shift
loop (the crate's `crc::crc16_ccitt` source file is not part of the sources
here; §2 describes it as a pure running 16-bit CRC with an explicit seed,
and the crate documentation names it CRC16-CCITT, polynomial 0x1021). -/
def crc16_round (crc : Nat) : Nat :=
  if crc &&& 0x8000 ≠ 0 then ((crc <<< 1) ^^^ 0x1021) &&& 0xffff
  else (crc <<< 1) &&& 0xffff

/-- Modelled from the spec: iterate the shift round `n` times. -/
def crc16_rounds : Nat → Nat → Nat
  | crc, 0 => crc
  | crc, n + 1 => crc16_rounds (crc16_round crc) n

/-- Modelled from the spec: the Checksum Engine `crc16_ccitt seed data` —
a 16-bit CRC over the byte buffer starting from the seed. -/
def crc16_ccitt (seed : Nat) (data : List Nat) : Nat :=
  data.foldl (fun crc b => crc16_rounds ((crc ^^^ (b <<< 8)) &&& 0xffff) 8)
    (seed &&& 0xffff)

/-- The engine state (`struct Ymodem`, ymodem.rs 40–47). -/
structure Ymodem where
  crc_mode : Bool
  blk : Nat
  retries : Nat
deriving Repr, DecidableEq

/-- `Ymodem::new` (ymodem.rs 55–61): block counter 0, retry budget 10. -/
def Ymodem.new (crc_mode : Bool) : Ymodem :=
  { crc_mode := crc_mode, blk := 0, retries := 10 }

/-- `Ymodem::nak` (ymodem.rs 63–65): the rejection byte is the CRC request
character in CRC mode, otherwise NAK. -/
def Ymodem.nak (st : Ymodem) : Nat :=
  if st.crc_mode then CRC else NAK

/-- The explicit serial channel: bytes written so far (`tx`), the sequence
byte of every block header written so far (`seqs`, bookkeeping extracted
from `tx`: the second byte of each 3-byte block header), and the bytes
still available for reading (`rx`). -/
structure Chan where
  tx : List Nat
  seqs : List Nat
  rx : List Nat
deriving Repr, DecidableEq

/-- Transfer engine errors: `nak` is `Error::new(BrokenPipe, "NAK")` raised
by `wait_ack` on the rejection byte; `retryTooMuch` is
`Error::new(BrokenPipe, "retry too much")`; `closed` models an I/O error
from the transport (the read stream is exhausted). -/
inductive YErr where
  | nak
  | retryTooMuch
  | closed
deriving Repr, DecidableEq

/-- `Ymodem::wait_ack` (ymodem.rs 136–150): read bytes until ACK
(`some (true, rest)`) or the mode-specific rejection byte
(`some (false, rest)`, the `BrokenPipe "NAK"` error in the source); any
other byte is echoed to stdout and skipped; `none` is a read failure. -/
def wait_ack (nakByte : Nat) : List Nat → Option (Bool × List Nat)
  | [] => none
  | c :: rest =>
      if c = ACK then some (true, rest)
      else if c = nakByte then some (false, rest)
      else wait_ack nakByte rest

/-- Size class of a block (`len` in `Ymodem::send_blk`, ymodem.rs 173–182):
1024 if the chunk exceeds 128 bytes, else 128. -/
def blkLen (data : List Nat) : Nat :=
  if 128 < data.length then 1024 else 128

/-- Size-class marker byte (`p` in `Ymodem::send_blk`): STX or SOH. -/
def blkMarker (data : List Nat) : Nat :=
  if 128 < data.length then STX else SOH

/-- The padded payload (`buf` in `Ymodem::send_blk`, ymodem.rs 192–193):
`vec![pad; len]` with the chunk copied over its front. -/
def blkBuf (data : List Nat) (pad : Nat) : List Nat :=
  data ++ List.replicate (blkLen data - data.length) pad

/-- One's complement of a byte (`!blk` on `u8`). -/
def comp8 (b : Nat) : Nat := 255 - b % 256

/-- The CRC trailer written in CRC mode (ymodem.rs 197–203): the checksum
with seed 0 over the padded payload, high byte then low byte, exactly as
the source computes them (`>> 8` and `& 0xff`). -/
def crcTrailer (buf : List Nat) : List Nat :=
  [crc16_ccitt 0 buf >>> 8, crc16_ccitt 0 buf &&& 0xff]

/-- The byte image one loop iteration of `Ymodem::send_blk` writes
(ymodem.rs 190–203): the 3-byte header `[p, blk, !blk]`, the padded
payload, and in CRC mode the 2-byte CRC trailer.  The loop recomputes
`buf` each iteration from loop-invariant inputs, so every attempt writes
this same image. -/
def blockFrame (crcMode : Bool) (seq : Nat) (data : List Nat) (pad : Nat) : List Nat :=
  blkMarker data :: seq % 256 :: comp8 seq ::
    (blkBuf data pad ++ if crcMode then crcTrailer (blkBuf data pad) else [])

/-- The retry loop of `Ymodem::send_blk` (ymodem.rs 184–213): while the
budget is nonzero, write the frame, then wait for the acknowledgement; a
rejection (or a failed read) records the error, decrements the budget and
loops; exhaustion returns the recorded error, or `retry too much` when no
attempt was recorded.  On success it returns the remaining budget. -/
def send_blk_loop (frame : List Nat) (seqByte nakByte : Nat) :
    Nat → Option YErr → List Nat → List Nat → List Nat → Except YErr (Nat × Chan)
  | 0, err, _, _, _ => .error (err.getD .retryTooMuch)
  | r + 1, _err, tx, seqs, rx =>
      match wait_ack nakByte rx with
      | none =>
          send_blk_loop frame seqByte nakByte r (some .closed)
            (tx ++ frame) (seqs ++ [seqByte]) []
      | some (true, rx2) => .ok (r + 1, ⟨tx ++ frame, seqs ++ [seqByte], rx2⟩)
      | some (false, rx2) =>
          send_blk_loop frame seqByte nakByte r (some .nak)
            (tx ++ frame) (seqs ++ [seqByte]) rx2

/-- `Ymodem::send_blk` (ymodem.rs 166–222): the wire sequence number
(`let blk = if last { 0 } else { self.blk }`, written inline below) is
forced to 0 for the terminating (`last`) block, otherwise the current block
counter; after a successful send the counter is incremented with
wraparound at 255 — unconditionally, also after a `last` block. -/
def Ymodem.send_blk (st : Ymodem) (data : List Nat) (pad : Nat) (last : Bool)
    (ch : Chan) : Except YErr (Ymodem × Chan) :=
  match send_blk_loop (blockFrame st.crc_mode (if last then 0 else st.blk) data pad)
      ((if last then 0 else st.blk) % 256) st.nak st.retries none ch.tx ch.seqs ch.rx with
  | .error e => .error e
  | .ok (r, ch2) =>
      .ok ({ st with retries := r, blk := if st.blk = 255 then 0 else st.blk + 1 }, ch2)

/-- The block-0 payload of the header block (`Ymodem::send_header`,
ymodem.rs 152–164): file name bytes, NUL, the decimal size digits, NUL. -/
def headerPayload (name : List Nat) (size : Nat) : List Nat :=
  name ++ [0] ++ (Nat.toDigits 10 size).map Char.toNat ++ [0]

/-- `Ymodem::send_header`: the header payload sent with pad byte 0. -/
def Ymodem.send_header (st : Ymodem) (name : List Nat) (size : Nat) (ch : Chan) :
    Except YErr (Ymodem × Chan) :=
  st.send_blk (headerPayload name size) 0 false ch

/-- The data loop of `Ymodem::send` (ymodem.rs 117–124):
`while let Ok(n) = file.read(&mut buff)`.  `reads` is the sequence of
results of `file.read`: `none` is an `Err` from the file stream — which
exits the loop exactly like `Ok(0)` (end of file) — and `some chunk` is
`Ok(chunk.len())` with the bytes read (at most 1024 per call).  An
exhausted list behaves like a file at end-of-file.  Data chunks are sent
with the EOF pad byte `0x1A`. -/
def Ymodem.send_data (st : Ymodem) (reads : List (Option (List Nat))) (ch : Chan) :
    Except YErr (Ymodem × Chan) :=
  match reads with
  | [] => .ok (st, ch)
  | none :: _ => .ok (st, ch)
  | some [] :: _ => .ok (st, ch)
  | some chunk :: rest =>
      match st.send_blk chunk EOF false ch with
      | .error e => .error e
      | .ok (st2, ch2) => st2.send_data rest ch2

/-- `Ymodem::wait_for_start` (ymodem.rs 73–87): read until NAK (plain
mode) or the CRC request character (CRC mode); the observed character
fixes the mode. -/
def wait_for_start : List Nat → Option (Bool × List Nat)
  | [] => none
  | c :: rest =>
      if c = NAK then some (false, rest)
      else if c = CRC then some (true, rest)
      else wait_for_start rest

/-- `Ymodem::send` (ymodem.rs 102–134): header block, data-block loop,
EOT (whose acknowledgement is not retried: a rejection propagates), the
terminating block `[0]` with pad 0 and `last = true`, then the final
start/mode character which is stored back into the mode flag. -/
def Ymodem.send (st : Ymodem) (reads : List (Option (List Nat)))
    (name : List Nat) (size : Nat) (ch : Chan) : Except YErr (Ymodem × Chan) :=
  match st.send_header name size ch with
  | .error e => .error e
  | .ok (st1, ch1) =>
      match st1.send_data reads ch1 with
      | .error e => .error e
      | .ok (st2, ch2) =>
          match wait_ack st2.nak ch2.rx with
          | none => .error .closed
          | some (false, _) => .error .nak
          | some (true, rx3) =>
              match st2.send_blk [0] 0 true ⟨ch2.tx ++ [EOT], ch2.seqs, rx3⟩ with
              | .error e => .error e
              | .ok (st3, ch4) =>
                  match wait_for_start ch4.rx with
                  | none => .error .closed
                  | some (mode, rx5) =>
                      .ok ({ st3 with crc_mode := mode }, ⟨ch4.tx, ch4.seqs, rx5⟩)

/-- The failure needle `"try 'help'"` checked by `wait_for_load_crc`
(written with explicit quote characters). -/
def helpNeedle : List Char :=
  "try ".data ++ [Char.ofNat 39] ++ "help".data ++ [Char.ofNat 39]

/-- `UbootShell::wait_for_load_crc` (lib.rs 532–550): read bytes; as soon
as the accumulated reply ends with `"C"` return `Ok(true)`; if it contains
the failure needle, fail with `InvalidData`; `none` of the stream models a
read error. -/
def wait_for_load_crc : List Char → List Char → Except Unit Bool
  | _, [] => .error ()
  | acc, b :: rest =>
      if b = 'C' then .ok true
      else if containsSub helpNeedle (acc ++ [b]) then .error ()
      else wait_for_load_crc (acc ++ [b]) rest

/-! ## Spec-side definitions for refinement claims -/

/-- The block byte image as §4.4/§6 of the spec word it (for claim C2):
size-class marker, sequence number, its one's-complement, payload padded to
the size class, and — present only in CRC mode — a 2-byte checksum trailer
computed by the Checksum Engine with seed 0 over the full padded payload,
most-significant byte first. -/
def specBlockImage (crcMode : Bool) (seq : Nat) (data : List Nat) (pad : Nat) :
    List Nat :=
  let cls := if 128 < data.length then 1024 else 128
  let marker := if 128 < data.length then STX else SOH
  let padded := data ++ List.replicate (cls - data.length) pad
  let checksum := crc16_ccitt 0 padded
  marker :: seq % 256 :: comp8 seq ::
    (padded ++ if crcMode then [checksum / 256, checksum % 256] else [])

/-- The byte image of the C8 witness transfer: header block, one data
block, the EOT byte, the terminating block. -/
def c8txBytes : List Nat :=
  blockFrame false 0 (headerPayload [97] 3) 0 ++ blockFrame false 1 [1, 2, 3] EOF ++
    [EOT] ++ blockFrame false 0 [0] 0
/-- The channel of the C3 counterexample: the receiver rejects the first
block 4 times then accepts it, rejects the second block 6 times, and would
accept anything afterwards. -/
def c3chan : Chan :=
  ⟨[], [], List.replicate 4 NAK ++ [ACK] ++ List.replicate 6 NAK ++ List.replicate 10 ACK⟩
/-- First block send of the C3 counterexample run. -/
def c3step1 : Except YErr (Ymodem × Chan) :=
  (Ymodem.new false).send_blk [1] EOF false c3chan
/-- Engine state after the first block of the C3 counterexample run. -/
def c3st1 : Ymodem :=
  match c3step1 with
  | .ok (st, _) => st
  | .error _ => Ymodem.new false
/-- Channel state after the first block of the C3 counterexample run. -/
def c3ch1 : Chan :=
  match c3step1 with
  | .ok (_, ch) => ch
  | .error _ => c3chan
/-- The state after one trailer send in the C4 counterexample. -/
def c4run : Except YErr (Ymodem × Chan) :=
  Ymodem.send_blk ⟨false, 4, 10⟩ [0] 0 true ⟨[], [], [ACK]⟩
/-- The full wire image of the C4 3-data-block transfer. -/
def c4txBytes : List Nat :=
  blockFrame false 0 (headerPayload [97] 3) 0 ++ blockFrame false 1 [1] EOF ++
    blockFrame false 2 [2] EOF ++ blockFrame false 3 [3] EOF ++ [EOT] ++
    blockFrame false 0 [0] 0

/-- Spec-side: an ASCII decimal digit. -/
def decDigit (c : Char) : Bool := decide (48 ≤ c.toNat ∧ c.toNat ≤ 57)

/-- Spec-side: an ASCII hexadecimal digit (either letter case). -/
def hexDigit (c : Char) : Bool :=
  decide ((48 ≤ c.toNat ∧ c.toNat ≤ 57) ∨ (97 ≤ c.toNat ∧ c.toNat ≤ 102) ∨
    (65 ≤ c.toNat ∧ c.toNat ≤ 70))

/-- Spec-side: the value of a hexadecimal digit. -/
def hexDigitVal (c : Char) : Nat :=
  if c.toNat ≤ 57 then c.toNat - 48
  else if 97 ≤ c.toNat then c.toNat - 87
  else c.toNat - 55

/-- Spec-side: the numeric value of a decimal digit string. -/
def decValue (s : List Char) : Nat := s.foldl (fun a c => 10 * a + (c.toNat - 48)) 0

/-- Spec-side: the numeric value of a hexadecimal digit string. -/
def hexValue (s : List Char) : Nat := s.foldl (fun a c => 16 * a + hexDigitVal c) 0

/-- Discriminator for `Except` results. -/
def exceptIsOk {ε α : Type} : Except ε α → Bool
  | .ok _ => true
  | .error _ => false

/-! ## Helper lemmas -/

theorem shiftRight8_eq_div (n : Nat) : n >>> 8 = n / 256 := by
  simpa using Nat.shiftRight_eq_div_pow n 8

theorem land255_eq_mod (n : Nat) : n &&& 255 = n % 256 := by
  simpa using Nat.and_pow_two_sub_one_eq_mod n 8

theorem mem_of_getLast?_eq_some {α : Type} {l : List α} {x : α}
    (h : l.getLast? = some x) : x ∈ l := by
  obtain ⟨hne, hx⟩ := List.mem_getLast?_eq_getLast (Option.mem_def.mpr h)
  exact hx ▸ List.getLast_mem hne

/-! ## Claim theorems (shell command path) -/

/-- C1: with the captured prompt-prefix `"myprompt> "`, the line put on the
wire for `cmd("echo hi")` is `"echo hi&& echo cmd-ok\n"`, and if the channel
replies with `"hi\ncmd-ok\nmyprompt> "`, the command round-trip succeeds and
returns exactly `"hi"`: prompt-prefix, marker token, echoed command text and
surrounding whitespace are all stripped from the accumulated reply. -/
theorem C1_cmd_success :
    cmdTxLine "echo hi".data = "echo hi&& echo cmd-ok\n".data ∧
    cmd_once "myprompt> ".data "echo hi".data "hi\ncmd-ok\nmyprompt> ".data =
      .ok "hi".data := by
  decide

/-- C2: for every block the generic block-send procedure transmits — header,
data, and trailer blocks alike — the byte image written per attempt is the
size-class marker byte, the sequence number, its one's-complement, the
payload padded to the size class, and — if and only if the negotiated mode
is CRC — a 2-byte checksum trailer computed by the Checksum Engine with
seed 0 over the full padded payload, most-significant byte first; in plain
mode no trailer byte follows the padded payload. -/
theorem C2_block_byte_image (c : Bool) (seq : Nat) (data : List Nat) (pad : Nat) :
    blockFrame c seq data pad = specBlockImage c seq data pad := by
  cases c <;>
    simp [blockFrame, specBlockImage, blkMarker, blkBuf, blkLen, crcTrailer,
      shiftRight8_eq_div, land255_eq_mod]

/-- C10: only data blocks are padded with the pad byte 0x1A; the header
block (`filename NUL size NUL`) and the terminating block are padded to
their size class with 0x00, so the unused tail of those two block kinds
never contains 0x1A. -/
theorem C10_pad_bytes :
    (∀ (name : List Nat) (size : Nat),
      (blkBuf (headerPayload name size) 0).drop (headerPayload name size).length =
        List.replicate (blkLen (headerPayload name size) - (headerPayload name size).length) 0) ∧
    (blkBuf [0] 0).drop 1 = List.replicate 127 0 ∧
    (∀ chunk : List Nat,
      (blkBuf chunk EOF).drop chunk.length =
        List.replicate (blkLen chunk - chunk.length) EOF) ∧
    (∀ (name : List Nat) (size : Nat),
      EOF ∉ (blkBuf (headerPayload name size) 0).drop (headerPayload name size).length) ∧
    EOF ∉ (blkBuf [0] 0).drop 1 := by
  refine ⟨?_, by decide, ?_, ?_, by decide⟩
  · intro name size
    simp [blkBuf, List.drop_left]
  · intro chunk
    simp [blkBuf, List.drop_left]
  · intro name size
    simp [blkBuf, List.drop_left, List.mem_replicate, EOF]

/-- C9: `wait_for_load_crc` can only succeed with the value `true` (it
waits for the CRC mode-request byte and errors on the failure text), so
the transfer engine that `loady` constructs from its result
(`Ymodem::new(crc)`) always starts with the crc-mode flag set: plain
mode is unreachable through `loady`. -/
theorem C9_loady_always_crc (acc stream : List Char) (b : Bool)
    (h : wait_for_load_crc acc stream = .ok b) :
    b = true ∧ (Ymodem.new b).crc_mode = true := by
  induction stream generalizing acc with
  | nil => simp [wait_for_load_crc] at h
  | cons c rest ih =>
      rw [wait_for_load_crc] at h
      by_cases hc : c = 'C'
      · rw [if_pos hc] at h
        cases h
        exact ⟨rfl, rfl⟩
      · rw [if_neg hc] at h
        by_cases hn : containsSub helpNeedle (acc ++ [c]) = true
        · rw [if_pos hn] at h
          cases h
        · rw [if_neg hn] at h
          exact ih _ h

/-- Witness for C9 at the stream `"C"`. -/
theorem C9_loady_always_crc_witness :
    wait_for_load_crc [] ['C'] = .ok true ∧ (Ymodem.new true).crc_mode = true :=
  ⟨by decide, (C9_loady_always_crc [] ['C'] true (by decide)).2⟩

/-- C7: `env`'s post-processing of the command output splits on newline,
discards lines that are empty after trimming, and returns the last
remaining line; if none remains it is a NotFound error.  In particular on
the output `"\nconsole=ttyS0"` it returns `Ok("console=ttyS0")`. -/
theorem C7_env_last_line :
    env_from_output "\nconsole=ttyS0".data = .ok "console=ttyS0".data ∧
    (∀ s : List Char, env_from_output s = .error .notFound ↔
      ∀ l ∈ splitNl s, trim l = []) ∧
    (∀ s v : List Char, env_from_output s = .ok v → v ∈ splitNl s ∧ trim v ≠ []) := by
  refine ⟨by decide, ?_, ?_⟩
  · intro s
    unfold env_from_output
    constructor
    · intro h l hl
      match hlast : ((splitNl s).filter (fun l => !(trim l).isEmpty)).getLast? with
      | some v => rw [hlast] at h; cases h
      | none =>
          rw [List.getLast?_eq_none_iff, List.filter_eq_nil_iff] at hlast
          have := hlast l hl
          simpa [List.isEmpty_iff] using this
    · intro h
      have hnil : (splitNl s).filter (fun l => !(trim l).isEmpty) = [] := by
        rw [List.filter_eq_nil_iff]
        intro l hl
        simp [List.isEmpty_iff, h l hl]
      rw [hnil]
      rfl
  · intro s v h
    unfold env_from_output at h
    match hlast : ((splitNl s).filter (fun l => !(trim l).isEmpty)).getLast? with
    | none => rw [hlast] at h; cases h
    | some w =>
        rw [hlast] at h
        cases h
        have hmem := mem_of_getLast?_eq_some hlast
        rw [List.mem_filter] at hmem
        refine ⟨hmem.1, ?_⟩
        have := hmem.2
        simpa [List.isEmpty_iff] using this

/-- Witness for C7: on the output `"a\nb"` the returned value `"b"` is one
of the newline-separated lines and is nonempty after trimming. -/
theorem C7_env_last_line_witness :
    "b".data ∈ splitNl "a\nb".data ∧ trim "b".data ≠ [] :=
  C7_env_last_line.2.2 "a\nb".data "b".data (by decide)

theorem eq_error_of_not_ok {ε α : Type} {x : Except ε α} (h : exceptIsOk x = false) :
    ∃ m, x = .error m := by
  cases x with
  | ok v => simp [exceptIsOk] at h
  | error m => exact ⟨m, rfl⟩

theorem cmd_retry_step (perfix cmd : List Char) (replies : Nat → List Char)
    (r a : Nat) (m : List Char) (h : cmd_once perfix cmd (replies a) = .error m) :
    cmd_retry perfix cmd replies (r + 1) a = cmd_retry perfix cmd replies r (a + 1) := by
  rw [cmd_retry, h]

/-- C5 counterexample: on a channel that always replies without the success
marker, the per-attempt error does carry the response text (`"bad"`), the
retry loop makes exactly 3 attempts, but the terminal error returned to the
caller is the fixed text `command ... failed after retries`, which does not
contain the last diagnostic text observed on the wire. -/
theorem C5_counterexample :
    cmd_once "myprompt> ".data "echo hi".data "bad\nmyprompt> ".data =
      .error "command `echo hi` failed, response: bad".data ∧
    cmd_model "myprompt> ".data "echo hi".data (fun _ => "bad\nmyprompt> ".data) =
      (.error "command `echo hi` failed after retries".data, 3) ∧
    containsSub "bad".data "command `echo hi` failed after retries".data = false := by
  decide

/-- C5 amended: `cmd` retries the full round-trip up to a fixed bound of 3
attempts; when every attempt's reply lacks the success marker the error is
surfaced only after exactly 3 attempts, as a terminal error that names the
failed command but discards the last diagnostic text (only the per-attempt
errors carry the response text). -/
theorem C5_cmd_retry_bound (perfix cmd : List Char) (replies : Nat → List Char)
    (h : ∀ i, i < 3 → exceptIsOk (cmd_once perfix cmd (replies i)) = false) :
    cmd_model perfix cmd replies = (.error (cmdFinalErr cmd), 3) := by
  obtain ⟨m0, e0⟩ := eq_error_of_not_ok (h 0 (by omega))
  obtain ⟨m1, e1⟩ := eq_error_of_not_ok (h 1 (by omega))
  obtain ⟨m2, e2⟩ := eq_error_of_not_ok (h 2 (by omega))
  unfold cmd_model
  rw [cmd_retry_step perfix cmd replies 2 0 m0 e0,
    cmd_retry_step perfix cmd replies 1 1 m1 e1,
    cmd_retry_step perfix cmd replies 0 2 m2 e2, cmd_retry]

/-- Witness for C5 at a concrete channel whose replies never carry the
success marker. -/
theorem C5_cmd_retry_bound_witness :
    cmd_model "myprompt> ".data "ls".data (fun _ => "nope\nmyprompt> ".data) =
      (.error (cmdFinalErr "ls".data), 3) :=
  C5_cmd_retry_bound "myprompt> ".data "ls".data (fun _ => "nope\nmyprompt> ".data)
    (by intro i hi; interval_cases i <;> decide)

theorem send_data_err_eq_eof (st : Ymodem) (pre rest : List (Option (List Nat)))
    (ch : Chan) : st.send_data (pre ++ none :: rest) ch = st.send_data pre ch := by
  induction pre generalizing st ch with
  | nil => rfl
  | cons hd tl ih =>
      match hd with
      | none => rfl
      | some [] => rfl
      | some (b :: bs) =>
          have hstep : ∀ (reads : List (Option (List Nat))),
              st.send_data (some (b :: bs) :: reads) ch =
                match st.send_blk (b :: bs) EOF false ch with
                | .error e => .error e
                | .ok (st2, ch2) => st2.send_data reads ch2 := fun _ => rfl
          rw [List.cons_append, hstep, hstep]
          cases st.send_blk (b :: bs) EOF false ch with
          | error e => rfl
          | ok p =>
              obtain ⟨st2, ch2⟩ := p
              dsimp only
              exact ih st2 ch2

set_option maxRecDepth 8000 in
/-- C8: a file stream whose read returns an error is treated exactly like
end-of-file: `Ymodem::send` on reads `pre ++ [Err] ++ rest` behaves
identically to `send` on `pre` alone — the data loop stops, the EOT byte
and the terminating block are still sent, and (concretely, on an
all-acknowledging channel after one successful chunk) the transfer
returns Ok even though the file was only partially sent. -/
theorem C8_read_error_is_eof (st : Ymodem) (pre rest : List (Option (List Nat)))
    (name : List Nat) (size : Nat) (ch : Chan) :
    st.send (pre ++ none :: rest) name size ch = st.send pre name size ch ∧
    (Ymodem.new false).send [some [1, 2, 3], none, some [9]] [97] 3
        ⟨[], [], List.replicate 4 ACK ++ [NAK]⟩ =
      .ok (⟨false, 3, 10⟩, ⟨c8txBytes, [0, 1, 0], []⟩) := by
  constructor
  · unfold Ymodem.send
    cases hsh : st.send_header name size ch with
    | error e => rfl
    | ok p =>
        obtain ⟨st1, ch1⟩ := p
        dsimp only
        rw [send_data_err_eq_eof]
  · decide

theorem nak_ne_ack (st : Ymodem) : st.nak ≠ ACK := by
  cases h : st.crc_mode <;> simp [Ymodem.nak, h, CRC, NAK, ACK]

theorem send_blk_loop_acks (frame : List Nat) (seqB nakB : Nat) (hnak : nakB ≠ ACK) :
    ∀ (k r : Nat), k < r → ∀ (err : Option YErr) (tx seqs rest : List Nat),
    send_blk_loop frame seqB nakB r err tx seqs (List.replicate k nakB ++ ACK :: rest) =
      .ok (r - k, ⟨tx ++ (List.replicate (k + 1) frame).flatten,
        seqs ++ List.replicate (k + 1) seqB, rest⟩) := by
  intro k
  induction k with
  | zero =>
      intro r hr err tx seqs rest
      match r, hr with
      | r' + 1, _ =>
          rw [send_blk_loop]
          have hwa : wait_ack nakB (List.replicate 0 nakB ++ ACK :: rest) =
              some (true, rest) := by
            simp [wait_ack]
          rw [hwa]
          dsimp only
          simp
  | succ k' ih =>
      intro r hr err tx seqs rest
      match r, hr with
      | r' + 1, hr =>
          rw [send_blk_loop]
          have hwa : wait_ack nakB (List.replicate (k' + 1) nakB ++ ACK :: rest) =
              some (false, List.replicate k' nakB ++ ACK :: rest) := by
            rw [List.replicate_succ, List.cons_append, wait_ack, if_neg hnak, if_pos rfl]
          rw [hwa]
          dsimp only
          rw [ih r' (by omega)]
          simp [List.replicate_succ, List.flatten_cons, List.append_assoc, Nat.succ_sub_succ]

theorem send_blk_loop_exhaust (frame : List Nat) (seqB nakB : Nat) (hnak : nakB ≠ ACK) :
    ∀ (r k : Nat), 1 ≤ r → r ≤ k → ∀ (err : Option YErr) (tx seqs rest : List Nat),
    send_blk_loop frame seqB nakB r err tx seqs (List.replicate k nakB ++ ACK :: rest) =
      .error .nak := by
  intro r
  induction r with
  | zero => intro k h1 h2 err tx seqs rest; exact absurd h1 (by omega)
  | succ r' ih =>
      intro k h1 h2 err tx seqs rest
      match k, h2 with
      | k' + 1, h2 =>
          rw [send_blk_loop]
          have hwa : wait_ack nakB (List.replicate (k' + 1) nakB ++ ACK :: rest) =
              some (false, List.replicate k' nakB ++ ACK :: rest) := by
            rw [List.replicate_succ, List.cons_append, wait_ack, if_neg hnak, if_pos rfl]
          rw [hwa]
          dsimp only
          rcases r' with _ | r''
          · rw [send_blk_loop]
            rfl
          · exact ih k' (by omega) (by omega) (some .nak) (tx ++ frame) (seqs ++ [seqB]) rest

theorem send_blk_loop_seqs (frame : List Nat) (seqB nakB : Nat) :
    ∀ (r : Nat) (err : Option YErr) (tx seqs rx : List Nat) (r' : Nat) (ch' : Chan),
      send_blk_loop frame seqB nakB r err tx seqs rx = .ok (r', ch') →
      ∃ m, 1 ≤ m ∧ ch'.seqs = seqs ++ List.replicate m seqB := by
  intro r
  induction r with
  | zero =>
      intro err tx seqs rx r' ch' h
      rw [send_blk_loop] at h
      simp at h
  | succ r ih =>
      intro err tx seqs rx r' ch' h
      rw [send_blk_loop] at h
      cases hwa : wait_ack nakB rx with
      | none =>
          rw [hwa] at h
          dsimp only at h
          obtain ⟨m, hm1, hm2⟩ := ih _ _ _ _ _ _ h
          refine ⟨m + 1, by omega, ?_⟩
          rw [hm2]
          simp [List.replicate_succ, List.append_assoc]
      | some p =>
          obtain ⟨b, rx2⟩ := p
          cases b with
          | true =>
              rw [hwa] at h
              dsimp only at h
              simp only [Except.ok.injEq, Prod.mk.injEq] at h
              obtain ⟨h1, h2⟩ := h
              subst h2
              exact ⟨1, le_refl 1, by simp⟩
          | false =>
              rw [hwa] at h
              dsimp only at h
              obtain ⟨m, hm1, hm2⟩ := ih _ _ _ _ _ _ h
              refine ⟨m + 1, by omega, ?_⟩
              rw [hm2]
              simp [List.replicate_succ, List.append_assoc]

theorem send_blk_ok_inv (st : Ymodem) (data : List Nat) (pad : Nat) (last : Bool)
    (ch : Chan) (st2 : Ymodem) (ch2 : Chan)
    (h : st.send_blk data pad last ch = .ok (st2, ch2)) :
    st2.blk = (if st.blk = 255 then 0 else st.blk + 1) ∧
    ∃ m, 1 ≤ m ∧
      ch2.seqs = ch.seqs ++ List.replicate m ((if last then 0 else st.blk) % 256) := by
  unfold Ymodem.send_blk at h
  cases hl : send_blk_loop (blockFrame st.crc_mode (if last then 0 else st.blk) data pad)
      ((if last then 0 else st.blk) % 256) st.nak st.retries none ch.tx ch.seqs ch.rx with
  | error e => rw [hl] at h; simp at h
  | ok p =>
      obtain ⟨r, ch'⟩ := p
      rw [hl] at h
      dsimp only at h
      simp only [Except.ok.injEq, Prod.mk.injEq] at h
      obtain ⟨h1, h2⟩ := h
      subst h2
      exact ⟨by rw [← h1], send_blk_loop_seqs _ _ _ _ _ _ _ _ _ _ hl⟩

set_option maxRecDepth 8000 in
/-- C3 counterexample: the retry budget is not per-block.  A fresh engine
starts with budget 10; the first block consumes 4 of it (4 rejections, then
accepted); the second block is then rejected only 6 times — with 10
acceptances still pending on the channel — yet the transfer fails with the
last rejection cause, because the budget is shared across the whole
transfer. -/
theorem C3_counterexample :
    (Ymodem.new false).retries = 10 ∧
    exceptIsOk c3step1 = true ∧
    c3st1.retries = 6 ∧
    c3ch1.rx = List.replicate 6 NAK ++ List.replicate 10 ACK ∧
    c3st1.send_blk [2] EOF false c3ch1 = .error .nak := by
  decide

/-- C3 amended: block transmission draws on a single retry budget, fixed at
10 when the engine is constructed and shared by the whole transfer: each
rejected transmission of any block decrements it and re-sends the identical
byte image, a successful send keeps the remaining budget for the following
blocks, and once the budget is exhausted the transfer fails with the last
rejection cause (`NAK`), or with a generic `retry too much` error when a
block send starts with the budget already at zero. -/
theorem C3_shared_retry_budget (st : Ymodem) (data : List Nat) (pad : Nat)
    (last : Bool) (tx seqs rest : List Nat) (k : Nat) :
    (k < st.retries →
      st.send_blk data pad last ⟨tx, seqs, List.replicate k st.nak ++ ACK :: rest⟩ =
        .ok ({ st with
                retries := st.retries - k
                blk := if st.blk = 255 then 0 else st.blk + 1 },
          ⟨tx ++ (List.replicate (k + 1)
              (blockFrame st.crc_mode (if last then 0 else st.blk) data pad)).flatten,
            seqs ++ List.replicate (k + 1) ((if last then 0 else st.blk) % 256), rest⟩)) ∧
    (1 ≤ st.retries → st.retries ≤ k →
      st.send_blk data pad last ⟨tx, seqs, List.replicate k st.nak ++ ACK :: rest⟩ =
        .error .nak) ∧
    (st.retries = 0 → ∀ ch : Chan, st.send_blk data pad last ch = .error .retryTooMuch) := by
  refine ⟨?_, ?_, ?_⟩
  · intro hk
    unfold Ymodem.send_blk
    dsimp only
    rw [send_blk_loop_acks _ _ _ (nak_ne_ack st) k st.retries hk none tx seqs rest]
  · intro h1 h2
    unfold Ymodem.send_blk
    dsimp only
    rw [send_blk_loop_exhaust _ _ _ (nak_ne_ack st) st.retries k h1 h2 none tx seqs rest]
  · intro h0 ch
    unfold Ymodem.send_blk
    rw [h0, send_blk_loop]
    rfl

/-- Witness for C3 at a concrete engine and channel (2 rejections, then an
acceptance): the send succeeds, the identical frame is on the wire 3 times,
and the remaining budget drops from 10 to 8. -/
theorem C3_shared_retry_budget_witness :
    (Ymodem.new false).send_blk [5] EOF false
        ⟨[], [], List.replicate 2 (Ymodem.new false).nak ++ ACK :: []⟩ =
      .ok ({ Ymodem.new false with
              retries := (Ymodem.new false).retries - 2
              blk := if (Ymodem.new false).blk = 255 then 0
                else (Ymodem.new false).blk + 1 },
        ⟨[] ++ (List.replicate 3 (blockFrame (Ymodem.new false).crc_mode
            (if false then 0 else (Ymodem.new false).blk) [5] EOF)).flatten,
          [] ++ List.replicate 3 ((if false then 0 else (Ymodem.new false).blk) % 256),
          []⟩) :=
  (C3_shared_retry_budget (Ymodem.new false) [5] EOF false [] [] [] 2).1 (by decide)

/-- C4 counterexample: a trailer (`last`) send from an engine whose block
counter is 4 puts sequence number 0 on the wire, but the block counter
afterwards is 5, not 4: the counter *is* incremented after the trailer
send, contradicting the claim's "not incremented" conjunct. -/
theorem C4_counterexample :
    c4run = .ok (⟨false, 5, 10⟩, ⟨blockFrame false 0 [0] 0, [0], []⟩) ∧
    (5 : Nat) ≠ 4 := by
  decide

set_option maxRecDepth 8000 in
/-- C4 amended: the terminating block is sent with its wire sequence number
forced to 0 regardless of the engine's current block counter, and the
counter is then incremented exactly as after every other successful block
send (the incremented value is simply never used again); the sequence
numbers on the wire for a 3-data-block transfer are
`0 (header), 1, 2, 3, 0 (terminator)`. -/
theorem C4_trailer_sequence (st : Ymodem) (data : List Nat) (pad : Nat) (ch : Chan) :
    (∀ (st2 : Ymodem) (ch2 : Chan), st.send_blk data pad true ch = .ok (st2, ch2) →
      (∃ m, 1 ≤ m ∧ ch2.seqs = ch.seqs ++ List.replicate m 0) ∧
      st2.blk = (if st.blk = 255 then 0 else st.blk + 1)) ∧
    (Ymodem.new false).send [some [1], some [2], some [3]] [97] 3
        ⟨[], [], List.replicate 6 ACK ++ [NAK]⟩ =
      .ok (⟨false, 5, 10⟩, ⟨c4txBytes, [0, 1, 2, 3, 0], []⟩) := by
  constructor
  · intro st2 ch2 h
    obtain ⟨hblk, m, hm1, hm2⟩ := send_blk_ok_inv _ _ _ _ _ _ _ h
    refine ⟨⟨m, hm1, ?_⟩, hblk⟩
    simpa using hm2
  · decide

/-- Witness for C4's universal part at a concrete trailer send: the wire
sequence trace gains one 0 and the counter moves from 7 to 8. -/
theorem C4_trailer_sequence_witness :
    (∃ m, 1 ≤ m ∧
      (⟨blockFrame false 0 [3] 0, [0], []⟩ : Chan).seqs =
        ([] : List Nat) ++ List.replicate m 0) ∧
    (⟨false, 8, 10⟩ : Ymodem).blk = (if (7 : Nat) = 255 then 0 else 7 + 1) :=
  (C4_trailer_sequence ⟨false, 7, 10⟩ [3] 0 ⟨[], [], [ACK]⟩).1 ⟨false, 8, 10⟩
    ⟨blockFrame false 0 [3] 0, [0], []⟩ (by decide)

theorem isRadixDigit_ten (c : Char) : isRadixDigit 10 c = decDigit c := by
  simp only [isRadixDigit, decDigit, digVal, decide_eq_decide]
  split_ifs <;> omega

theorem isRadixDigit_sixteen (c : Char) : isRadixDigit 16 c = hexDigit c := by
  simp only [isRadixDigit, hexDigit, digVal, decide_eq_decide]
  split_ifs <;> omega

theorem digVal_dec (c : Char) (h : decDigit c = true) : digVal c = c.toNat - 48 := by
  simp only [decDigit, decide_eq_true_eq] at h
  simp only [digVal]
  split_ifs <;> omega

theorem digVal_hex (c : Char) (h : hexDigit c = true) : digVal c = hexDigitVal c := by
  simp only [hexDigit, decide_eq_true_eq] at h
  simp only [digVal, hexDigitVal]
  split_ifs <;> omega

theorem not_ws_of_ascii_graph (c : Char) (h1 : 33 ≤ c.toNat) (h2 : c.toNat ≤ 126) :
    isRustWs c = false := by
  simp only [isRustWs, decide_eq_false_iff_not]
  omega

theorem dropWhile_eq_self_of (f : Char → Bool) :
    ∀ (s : List Char), (∀ c ∈ s, f c = false) → s.dropWhile f = s
  | [], _ => rfl
  | c :: r, h => by
      rw [List.dropWhile_cons, h c (List.mem_cons_self c r)]
      simp

theorem trim_eq_self (s : List Char) (h : ∀ c ∈ s, isRustWs c = false) : trim s = s := by
  unfold trim ltrim rtrim
  rw [dropWhile_eq_self_of isRustWs s h,
    dropWhile_eq_self_of isRustWs s.reverse (fun c hc => h c (List.mem_reverse.mp hc)),
    List.reverse_reverse]

theorem not_0x_of_digits (s : List Char) (h : s.all decDigit = true) :
    "0x".data.isPrefixOf s = false := by
  have hdat : "0x".data = ['0', 'x'] := rfl
  rw [hdat]
  match s with
  | [] => rfl
  | [a] => simp [List.isPrefixOf]
  | a :: b :: r =>
      have hb : decDigit b = true := List.all_eq_true.mp h b (by simp)
      have hxb : (('x' : Char) == b) = false := by
        rw [beq_eq_false_iff_ne]
        intro hx
        rw [← hx] at hb
        exact absurd hb (by decide)
      simp [List.isPrefixOf, hxb]

theorem foldl_digVal_dec (s : List Char) (h : ∀ c ∈ s, decDigit c = true) :
    ∀ a, s.foldl (fun a c => a * 10 + digVal c) a =
      s.foldl (fun a c => 10 * a + (c.toNat - 48)) a := by
  induction s with
  | nil => intro a; rfl
  | cons c r ih =>
      intro a
      simp only [List.foldl_cons]
      rw [digVal_dec c (h c (by simp)), Nat.mul_comm]
      exact ih (fun d hd => h d (by simp [hd])) _

theorem foldl_digVal_hex (s : List Char) (h : ∀ c ∈ s, hexDigit c = true) :
    ∀ a, s.foldl (fun a c => a * 16 + digVal c) a =
      s.foldl (fun a c => 16 * a + hexDigitVal c) a := by
  induction s with
  | nil => intro a; rfl
  | cons c r ih =>
      intro a
      simp only [List.foldl_cons]
      rw [digVal_hex c (h c (by simp)), Nat.mul_comm]
      exact ih (fun d hd => h d (by simp [hd])) _

theorem from_str_radix_digits (radix : Nat) (c0 : Char) (r : List Char)
    (hplus : ¬(c0 = '+')) (hall : (c0 :: r).all (isRadixDigit radix) = true) :
    from_str_radix radix (c0 :: r) =
      if (c0 :: r).foldl (fun a c => a * radix + digVal c) 0 < 2 ^ 64 then
        some ((c0 :: r).foldl (fun a c => a * radix + digVal c) 0)
      else none := by
  unfold from_str_radix
  dsimp only
  rw [if_neg hplus, if_neg (by simp : ¬(c0 :: r = [])), hall]
  simp

theorem from_str_radix_none (radix : Nat) (s : List Char) (c : Char) (hc : c ∈ s)
    (hbad : isRadixDigit radix c = false) (hplus : c ≠ '+') :
    from_str_radix radix s = none := by
  obtain ⟨c0, r, rfl⟩ : ∃ c0 r, s = c0 :: r := by
    cases s with
    | nil => simp at hc
    | cons c0 r => exact ⟨c0, r, rfl⟩
  have hallf : ∀ (t : List Char), c ∈ t → t.all (isRadixDigit radix) = false := by
    intro t hct
    cases hall : t.all (isRadixDigit radix) with
    | false => rfl
    | true =>
        have := List.all_eq_true.mp hall c hct
        rw [hbad] at this
        cases this
  unfold from_str_radix
  dsimp only
  by_cases h0 : c0 = '+'
  · rw [if_pos h0]
    have hcr : c ∈ r := by
      rcases List.mem_cons.mp hc with heq | h
      · subst heq
        exact absurd h0 hplus
      · exact h
    rw [if_neg (List.ne_nil_of_mem hcr), hallf r hcr]
    simp
  · rw [if_neg h0, if_neg (by simp : ¬(c0 :: r = [])), hallf (c0 :: r) hc]
    simp

theorem parse_int_eq (s : List Char) :
    parse_int s =
      if "0x".data.isPrefixOf (trim s) then from_str_radix 16 ((trim s).drop 2)
      else from_str_radix 10 (trim s) := rfl

/-- C6 amended: for every decimal digit string whose value fits in 64 bits,
`parse_int` returns `some` of its numeric value; for every `0x`-prefixed
hexadecimal digit string whose value fits in 64 bits, the hexadecimal value
is returned; any input whose trimmed text contains a character that is not
a decimal digit, not a hexadecimal digit, and not one of the accepted
prefix characters `x` and `+` yields `none`; and `env_int` turns `none`
into an `InvalidData` error. -/
theorem C6_parse_int :
    (∀ s : List Char, s ≠ [] → s.all decDigit = true → decValue s < 2 ^ 64 →
      parse_int s = some (decValue s)) ∧
    (∀ s : List Char, s ≠ [] → s.all hexDigit = true → hexValue s < 2 ^ 64 →
      parse_int ('0' :: 'x' :: s) = some (hexValue s)) ∧
    (∀ (s : List Char) (c : Char), c ∈ trim s → decDigit c = false →
      hexDigit c = false → c ≠ 'x' → c ≠ '+' → parse_int s = none) ∧
    (∀ s : List Char, parse_int s = none → env_int_of s = .error .invalidData) := by
  refine ⟨?_, ?_, ?_, ?_⟩
  · intro s hne hall hlt
    have hmem := List.all_eq_true.mp hall
    have hws : ∀ c ∈ s, isRustWs c = false := by
      intro c hc
      have hd := hmem c hc
      simp only [decDigit, decide_eq_true_eq] at hd
      exact not_ws_of_ascii_graph c (by omega) (by omega)
    obtain ⟨c0, r, rfl⟩ : ∃ c0 r, s = c0 :: r := by
      cases s with
      | nil => exact absurd rfl hne
      | cons c0 r => exact ⟨c0, r, rfl⟩
    have hc0 : ¬(c0 = '+') := by
      intro h
      have hd := hmem c0 (by simp)
      rw [h] at hd
      exact absurd hd (by decide)
    have hallr : (c0 :: r).all (isRadixDigit 10) = true := by
      have hfun : isRadixDigit 10 = decDigit := funext isRadixDigit_ten
      rw [hfun]
      exact hall
    rw [parse_int_eq, trim_eq_self _ hws, not_0x_of_digits _ hall,
      if_neg Bool.false_ne_true,
      from_str_radix_digits 10 c0 r hc0 hallr, foldl_digVal_dec _ hmem 0]
    have hdv : (c0 :: r).foldl (fun a c => 10 * a + (c.toNat - 48)) 0 =
        decValue (c0 :: r) := rfl
    rw [hdv, if_pos hlt]
  · intro s hne hall hlt
    have hmem := List.all_eq_true.mp hall
    have hws : ∀ c ∈ '0' :: 'x' :: s, isRustWs c = false := by
      intro c hc
      rcases List.mem_cons.mp hc with heq | hc2
      · rw [heq]; decide
      · rcases List.mem_cons.mp hc2 with heq | hc3
        · rw [heq]; decide
        · have hd := hmem c hc3
          simp only [hexDigit, decide_eq_true_eq] at hd
          exact not_ws_of_ascii_graph c (by omega) (by omega)
    obtain ⟨c0, r, rfl⟩ : ∃ c0 r, s = c0 :: r := by
      cases s with
      | nil => exact absurd rfl hne
      | cons c0 r => exact ⟨c0, r, rfl⟩
    have hc0 : ¬(c0 = '+') := by
      intro h
      have hd := hmem c0 (by simp)
      rw [h] at hd
      exact absurd hd (by decide)
    have hallr : (c0 :: r).all (isRadixDigit 16) = true := by
      have hfun : isRadixDigit 16 = hexDigit := funext isRadixDigit_sixteen
      rw [hfun]
      exact hall
    have hp : "0x".data.isPrefixOf ('0' :: 'x' :: c0 :: r) = true := by
      have hdat : "0x".data = ['0', 'x'] := rfl
      rw [hdat]
      simp [List.isPrefixOf]
    rw [parse_int_eq, trim_eq_self _ hws, hp, if_pos rfl]
    have hdrop : ('0' :: 'x' :: c0 :: r).drop 2 = c0 :: r := rfl
    rw [hdrop, from_str_radix_digits 16 c0 r hc0 hallr, foldl_digVal_hex _ hmem 0]
    have hdv : (c0 :: r).foldl (fun a c => 16 * a + hexDigitVal c) 0 =
        hexValue (c0 :: r) := rfl
    rw [hdv, if_pos hlt]
  · intro s c hmem hdec hhex hx hplus
    rw [parse_int_eq]
    cases h0 : "0x".data.isPrefixOf (trim s) with
    | true =>
        rw [if_pos rfl]
        obtain ⟨t2, ht⟩ : ∃ t2, trim s = '0' :: 'x' :: t2 := by
          have hdat : "0x".data = ['0', 'x'] := rfl
          rw [hdat] at h0
          rcases hts : trim s with _ | ⟨a, _ | ⟨b, t2⟩⟩
          · rw [hts] at h0
            exact absurd h0 (by decide)
          · rw [hts] at h0
            simp [List.isPrefixOf] at h0
          · rw [hts] at h0
            simp only [List.isPrefixOf, Bool.and_eq_true, beq_iff_eq] at h0
            obtain ⟨ha, hb, -⟩ := h0
            exact ⟨t2, by rw [← ha, ← hb]⟩
        rw [ht] at hmem ⊢
        have hdrop : ('0' :: 'x' :: t2).drop 2 = t2 := rfl
        rw [hdrop]
        have hct2 : c ∈ t2 := by
          rcases List.mem_cons.mp hmem with heq | hm2
          · rw [heq] at hdec
            exact absurd hdec (by decide)
          · rcases List.mem_cons.mp hm2 with heq | hm3
            · exact absurd heq hx
            · exact hm3
        have hbad : isRadixDigit 16 c = false := by
          rw [isRadixDigit_sixteen]
          exact hhex
        exact from_str_radix_none 16 t2 c hct2 hbad hplus
    | false =>
        rw [if_neg Bool.false_ne_true]
        have hbad : isRadixDigit 10 c = false := by
          rw [isRadixDigit_ten]
          exact hdec
        exact from_str_radix_none 10 (trim s) c hmem hbad hplus
  · intro s h
    unfold env_int_of
    rw [h]

set_option maxRecDepth 4000 in
/-- C6 counterexample: `"18446744073709551616"` (the decimal numeral of
`2 ^ 64`) is a valid nonempty decimal digit string, yet `parse_int` returns
`none` for it (64-bit overflow), not `some` of its numeric value. -/
theorem C6_counterexample :
    "18446744073709551616".data.all decDigit = true ∧
    "18446744073709551616".data ≠ [] ∧
    decValue "18446744073709551616".data = 2 ^ 64 ∧
    parse_int "18446744073709551616".data = none := by
  refine ⟨by decide, by decide, by decide, by decide⟩

/-- Witness for C6 at the decimal string `"42"`. -/
theorem C6_parse_int_witness :
    parse_int "42".data = some (decValue "42".data) :=
  C6_parse_int.1 "42".data (by decide) (by decide) (by decide)
